import Mathlib

/-!
Verification of `pythia/tasks/datasets/vqa2/dataset.py` (VQA2Dataset).

The Python source is shallowly embedded below: pure numpy/list code becomes
Lean functions on `List`, `float32` scores become `ℚ`, the mutable imdb
record store becomes an explicit `List IminfoRecord` that `getItem` threads
through (so in-place writes to a record are visible as a changed store),
and fallible paths return `Option`.
-/

/-- Modelled from the spec: `VocabDict` (from
`pythia/tasks/datasets/vqa2/utils.py`, which is not part of the provided
source). Per the spec it is a token-to-index mapping over a word list with a
designated unknown-token index; looking up a token that is not in the list is
not an error and degrades to the unknown index. -/
structure VocabDict where
  word_list : List String
  UNK_idx : ℕ
deriving DecidableEq

/-- Modelled from the spec: vocabulary lookup with unknown-token fallback. -/
def VocabDict.word2idx (vd : VocabDict) (w : String) : ℕ :=
  (vd.word_list.indexOf? w).getD vd.UNK_idx

/-- Modelled from the spec: vocabulary size. -/
def VocabDict.num_vocab (vd : VocabDict) : ℕ :=
  vd.word_list.length

/-- Embedding of `compute_answer_scores` (dataset.py lines 20-28).
The numpy `float32` vector of length `num_of_answers` becomes a `List ℚ`;
iteration over `set(answers)` becomes a fold over `answers.dedup` (the write
targets are distinct, so iteration order is irrelevant); `scores[answer] = v`
becomes `List.set`. -/
def compute_answer_scores (answers : List ℕ) (num_of_answers : ℕ) (unk_idx : ℕ) :
    List ℚ :=
  answers.dedup.foldl
    (fun scores answer =>
      if answer = unk_idx then
        scores.set answer 0
      else
        scores.set answer (min ((answers.count answer : ℚ) * (3 / 10)) 1))
    (List.replicate num_of_answers 0)

/-- One iteration body of the layout-pruning loop (dataset.py lines 126-129):
at position `n`, if the previous entry is `'_Filter'` or `'_Find'` and the
entry at `n` is `'_Filter'`, overwrite position `n` with Python `None`
(here: `Option.none`). The list elements are `Option String` because the
Python list holds strings and, after mutation, `None`. -/
def pruneBody (l : List (Option String)) (n : ℕ) : List (Option String) :=
  if (l.get? (n - 1) = some (some "_Filter") ∨ l.get? (n - 1) = some (some "_Find"))
      ∧ l.get? n = some (some "_Filter") then
    l.set n none
  else
    l

/-- The pruning loop `for n_t in range(len - 1, 0, -1)`: `pruneAux l k` runs
the body at positions `k, k - 1, ..., 1` (and does nothing for `k = 0`). -/
def pruneAux (l : List (Option String)) : ℕ → List (Option String)
  | 0 => l
  | n + 1 => pruneAux (pruneBody l (n + 1)) n

/-- Python truthiness of a list entry, as used by
`[t for t in gt_layout_tokens if t]` (dataset.py line 130): `None` and the
empty string are falsy, every other string is truthy. -/
def truthy : Option String → Bool
  | none => false
  | some s => s != ""

/-- The whole pruning pass of dataset.py lines 126-130: run the backwards
loop, then keep the truthy entries. -/
def prunePass (l : List (Option String)) : List (Option String) :=
  (pruneAux l (l.length - 1)).filter truthy

/-- Whether the pruning loop marks position `i` for removal, in terms of the
original token list: the loop visits positions `len-1, ..., 1`, and position
`i` is overwritten exactly when the original entry there is `'_Filter'` and
the original entry at `i - 1` is `'_Filter'` or `'_Find'` (positions below
the visited one are never yet mutated when read). -/
def markedB (ts : List String) (i : ℕ) : Bool :=
  decide (1 ≤ i) && (ts.get? i == some "_Filter")
    && ((ts.get? (i - 1) == some "_Filter") || (ts.get? (i - 1) == some "_Find"))

/-- Specification-side view of the pruning loop (before the truthiness
filter), following the claim's words: every position marked by `markedB` is
overwritten with `none`, every other token is kept in place. -/
def pruneLoopSpec (ts : List String) : List (Option String) :=
  ts.enum.map (fun p => if markedB ts p.1 then none else some p.2)

/-- One imdb metadata record (the `info` dict of one example). Only the keys
read by `VQA2Dataset.__getitem__` are modelled; `gt_layout_tokens` is a list
of `Option String` because the pruning loop writes Python `None` into it. -/
structure IminfoRecord where
  question_tokens : List String
  answer_tokens : Option String
  valid_answers_tokens : Option (List String)
  gt_layout_tokens : List (Option String)
deriving DecidableEq

/-- The optional `image_info_0` entry of the feature-store result. -/
structure ImageInfoRecord where
  max_bboxes : Option ℕ
  bboxes : Option (List ℤ)
deriving DecidableEq

/-- Embedding of the `VQA2Dataset` state after a successful `__init__`:
the imdb record store, the offset of the first real record, the two
vocabularies, the configuration flags, and the (external) layout assembler
as an opaque-to-us function value. `first_element_idx` comes from
`ImageDataset` (not in the provided source); only the fact that `get` adds
it to the caller index matters here, so it is an arbitrary field. -/
structure VQA2Dataset where
  imdb : List IminfoRecord
  first_element_idx : ℕ
  vocab_dict : VocabDict
  answer_dict : VocabDict
  T_encoder : ℕ
  T_decoder : ℕ
  load_answer : Bool
  load_gt_layout : Bool
  prune_filter_module : Bool
  verbose : Bool
  assembler : List (Option String) → ℕ → List ℤ

/-- Embedding of `VQA2Dataset.__len__` (dataset.py lines 85-86):
`len(self.imdb) - 1`. -/
def VQA2Dataset.len (d : VQA2Dataset) : ℕ :=
  d.imdb.length - 1

/-- The output sample dict, as a record with `Option` fields for the keys
that the code adds conditionally. -/
structure Sample where
  input_seq_batch : List ℕ
  seq_length_batch : ℕ
  image_features : List ℕ
  image_dim : Option ℕ
  image_boxes : Option (List ℤ)
  answer_label_batch : Option ℕ
  gt_layout_batch : Option (List ℤ)
  valid_ans_label_batch : Option (List ℤ)
  answers : Option (List ℚ)
  verbose_info : Option IminfoRecord
deriving DecidableEq

/-- numpy slice assignment `base[:len(vals)] = vals` on a 1-d array,
for `vals` no longer than `base`. -/
def sliceAssign (base : List ℤ) (vals : List ℤ) : List ℤ :=
  vals ++ base.drop vals.length

/-- The filled `valid_answers_idx` buffer of dataset.py lines 101-103 and
108-110: a numpy array of ten `-1` entries whose first `len(vats)` slots are
slice-assigned the vocabulary indices of the annotations. -/
def validAnswersIdx (ad : VocabDict) (vats : List String) : List ℤ :=
  sliceAssign (List.replicate 10 (-1))
    (vats.map (fun ans => ((ad.word2idx ans : ℕ) : ℤ)))

/-- Answer resolution of dataset.py lines 100-121, returning
`(answer index to store if load_answer, valid_answers_idx, answer_scores)`.
`choose` stands for `np.random.choice` (the injectable random source).
Paths on which the Python code would raise (no answer key at all, or more
than 10 valid answers overflowing the fixed numpy buffer) return `none`. -/
def answerPart (d : VQA2Dataset) (choose : List String → String)
    (iminfo : IminfoRecord) : Option (Option ℕ × List ℤ × List ℚ) :=
  let valid0 : List ℤ := List.replicate 10 (-1)
  let scores0 : List ℚ := List.replicate d.answer_dict.num_vocab 0
  if d.load_answer then
    match iminfo.answer_tokens with
    | some tok => some (some (d.answer_dict.word2idx tok), valid0, scores0)
    | none =>
      match iminfo.valid_answers_tokens with
      | some vats =>
        if vats.length ≤ 10 then
          let tok := choose vats
          let valid := validAnswersIdx d.answer_dict vats
          let ans_idx := vats.map d.answer_dict.word2idx
          let scores := compute_answer_scores ans_idx
            d.answer_dict.num_vocab d.answer_dict.UNK_idx
          some (some (d.answer_dict.word2idx tok), valid, scores)
        else none
      | none => none
  else
    some (none, valid0, scores0)

/-- Layout handling of dataset.py lines 123-132, returning
`(gt_layout if load_gt_layout, updated store, updated record)`. The Python
loop mutates `iminfo['gt_layout_tokens']` in place through the alias taken at
line 124; here that shows up as the store (and the record) being replaced by
a version whose `gt_layout_tokens` holds the post-loop list. -/
def layoutPart (d : VQA2Dataset) (pos : ℕ) (iminfo : IminfoRecord) :
    Option (List ℤ) × List IminfoRecord × IminfoRecord :=
  if d.load_gt_layout then
    let gt := iminfo.gt_layout_tokens
    if d.prune_filter_module then
      let gtm := pruneAux gt (gt.length - 1)
      let iminfo2 := { iminfo with gt_layout_tokens := gtm }
      let imdb2 := d.imdb.set pos iminfo2
      let pruned := gtm.filter truthy
      (some (d.assembler pruned d.T_decoder), imdb2, iminfo2)
    else
      (some (d.assembler gt d.T_decoder), d.imdb, iminfo)
  else
    (none, d.imdb, iminfo)

/-- The feature-slot copy loop of dataset.py lines 137-143:
`copyLoop slots i n` runs `n` more iterations starting at slot index `i`,
copying slot `i` when the key `image_feature_i` is present and breaking at
the first absent slot. The result lists the slot numbers copied, in order. -/
def copyLoop (slots : Finset ℕ) : ℕ → ℕ → List ℕ
  | _, 0 => []
  | i, n + 1 => if i ∈ slots then i :: copyLoop slots (i + 1) n else []

/-- The whole copy loop: `for idx in range(len(image_features.keys())): ...`.
`total` is the number of keys of the feature mapping (feature slots plus any
`image_info` keys). -/
def copyFeatureSlots (slots : Finset ℕ) (total : ℕ) : List ℕ :=
  copyLoop slots 0 total

/-- Embedding of `VQA2Dataset.__getitem__` (dataset.py lines 88-166).
`featSlots` is the set of feature-slot numbers present in the feature-store
result, `extraKeys` the number of its non-feature keys (`image_info_*`),
`info` its optional `image_info_0` entry, and `choose` stands for
`np.random.choice`. Returns the sample together with the record store after
the call (the pruning loop mutates the stored record in place). -/
def VQA2Dataset.getItem (d : VQA2Dataset) (featSlots : Finset ℕ) (extraKeys : ℕ)
    (info : Option ImageInfoRecord) (choose : List String → String) (idx : ℕ) :
    Option (Sample × List IminfoRecord) :=
  match d.imdb.get? (idx + d.first_element_idx) with
  | none => none
  | some iminfo =>
    let question_inds := iminfo.question_tokens.map d.vocab_dict.word2idx
    let seq_length := question_inds.length
    let read_len := min seq_length d.T_encoder
    let input_seq :=
      question_inds.take read_len ++ List.replicate (d.T_encoder - read_len) 0
    match answerPart d choose iminfo with
    | none => none
    | some (answer_idx, valid_answers_idx, answer_scores) =>
      let gl := layoutPart d (idx + d.first_element_idx) iminfo
      let copied := copyFeatureSlots featSlots (featSlots.card + extraKeys)
      some
        ({ input_seq_batch := input_seq
           seq_length_batch := seq_length
           image_features := copied
           image_dim := info.bind (fun r => r.max_bboxes)
           image_boxes := info.bind (fun r => r.bboxes)
           answer_label_batch := if d.load_answer then answer_idx else none
           gt_layout_batch := gl.1
           valid_ans_label_batch := some valid_answers_idx
           answers := some answer_scores
           verbose_info := if d.verbose then some gl.2.2 else none },
         gl.2.1)

/-- Effects `__init__` (dataset.py lines 32-83) performs, in order, around
the version check. -/
inductive InitEffect where
  | loadQuestionVocab
  | loadAnswerVocab
  | configureFeaturesDB
deriving DecidableEq

/-- Embedding of the construction-time control flow of `__init__`
(dataset.py lines 32-83): reject a non-`.npy` imdb file, load the question
vocabulary, read the imdb version and raise `TypeError` on mismatch, then
load the answer vocabulary and configure the feature store. Returns the
effects performed, in order, and whether construction succeeded. -/
def initTrace (isNpy : Bool) (dataVersion imdbVersion : ℕ) :
    List InitEffect × Bool :=
  if isNpy then
    let effs := [InitEffect.loadQuestionVocab]
    if dataVersion ≠ imdbVersion then
      (effs, false)
    else
      (effs ++ [InitEffect.loadAnswerVocab, InitEffect.configureFeaturesDB], true)
  else
    ([], false)

/-! Concrete fixtures used to instantiate the theorems below on closed
inputs. -/

/-- Deterministic stand-in for `np.random.choice`. -/
def choose0 : List String → String :=
  fun l => l.headD ""

/-- A trivially concrete layout assembler value. -/
def asm0 : List (Option String) → ℕ → List ℤ :=
  fun _ _ => []

/-- A tiny question vocabulary. -/
def vq0 : VocabDict :=
  { word_list := ["what", "is"], UNK_idx := 0 }

/-- A tiny answer vocabulary. -/
def va0 : VocabDict :=
  { word_list := ["yes", "no"], UNK_idx := 0 }

/-- The imdb header record sitting at raw position 0. -/
def hdr0 : IminfoRecord :=
  { question_tokens := [], answer_tokens := none,
    valid_answers_tokens := none, gt_layout_tokens := [] }

/-- A record with a two-token question (second token unknown). -/
def rec0 : IminfoRecord :=
  { question_tokens := ["what", "foo"], answer_tokens := none,
    valid_answers_tokens := none, gt_layout_tokens := [] }

/-- A record carrying multiple valid-answer annotations. -/
def rec8 : IminfoRecord :=
  { question_tokens := ["what"], answer_tokens := none,
    valid_answers_tokens := some ["yes", "maybe"], gt_layout_tokens := [] }

/-- A record carrying a ground-truth layout with a prunable `_Filter`. -/
def rec6 : IminfoRecord :=
  { question_tokens := ["what"], answer_tokens := none,
    valid_answers_tokens := none,
    gt_layout_tokens := [some "_Find", some "_Filter"] }

/-- A concrete dataset that loads neither answers nor layouts. -/
def D0 : VQA2Dataset :=
  { imdb := [hdr0, rec0], first_element_idx := 1, vocab_dict := vq0,
    answer_dict := va0, T_encoder := 3, T_decoder := 2, load_answer := false,
    load_gt_layout := false, prune_filter_module := false, verbose := false,
    assembler := asm0 }

/-- A concrete dataset that loads answers. -/
def D8 : VQA2Dataset :=
  { D0 with imdb := [hdr0, rec8], load_answer := true }

/-- A concrete dataset that loads and prunes ground-truth layouts. -/
def D6 : VQA2Dataset :=
  { D0 with
    imdb := [hdr0, rec6], load_gt_layout := true,
    prune_filter_module := true }

/-- A placeholder sample used only as the default of `Option.getD`. -/
def dummySample : Sample :=
  { input_seq_batch := [], seq_length_batch := 0, image_features := [],
    image_dim := none, image_boxes := none, answer_label_batch := none,
    gt_layout_batch := none, valid_ans_label_batch := none, answers := none,
    verbose_info := none }

/-- Placeholder result pair for `Option.getD`. -/
def dummyPair : Sample × List IminfoRecord :=
  (dummySample, [])

/-- The result of `get(0)` on `D0`. -/
def G0 : Option (Sample × List IminfoRecord) :=
  D0.getItem ∅ 0 none choose0 0

/-- The sample produced by `get(0)` on `D0`. -/
def S0 : Sample :=
  (G0.getD dummyPair).1

/-- The record store after `get(0)` on `D0`. -/
def St0 : List IminfoRecord :=
  (G0.getD dummyPair).2

/-- The result of `get(0)` on `D8`. -/
def G8 : Option (Sample × List IminfoRecord) :=
  D8.getItem ∅ 0 none choose0 0

/-- The sample produced by `get(0)` on `D8`. -/
def S8 : Sample :=
  (G8.getD dummyPair).1

/-- The record store after `get(0)` on `D8`. -/
def St8 : List IminfoRecord :=
  (G8.getD dummyPair).2

/-- The result of `get(0)` on `D6`. -/
def G6 : Option (Sample × List IminfoRecord) :=
  D6.getItem ∅ 0 none choose0 0

/-- The sample produced by `get(0)` on `D6`. -/
def S6 : Sample :=
  (G6.getD dummyPair).1

/-- The record store after `get(0)` on `D6`. -/
def St6 : List IminfoRecord :=
  (G6.getD dummyPair).2

/-! Helper lemmas about folds that only write distinct cells. -/

theorem foldl_set_length (f : ℕ → ℚ) (l : List ℕ) (init : List ℚ) :
    (l.foldl (fun s a => s.set a (f a)) init).length = init.length := by
  induction l generalizing init with
  | nil => rfl
  | cons a t ih => simp [List.foldl_cons, ih]

theorem foldl_set_get? (f : ℕ → ℚ) (l : List ℕ) (hl : l.Nodup) (init : List ℚ)
    (i : ℕ) :
    (l.foldl (fun s a => s.set a (f a)) init).get? i =
      if i ∈ l then (init.set i (f i)).get? i else init.get? i := by
  induction l generalizing init with
  | nil => simp
  | cons a t ih =>
    rcases List.nodup_cons.1 hl with ⟨hat, ht⟩
    rw [List.foldl_cons, ih ht]
    by_cases hia : i = a
    · subst hia
      rw [if_neg hat, if_pos (List.mem_cons_self i t)]
    · by_cases hit : i ∈ t
      · rw [if_pos hit, if_pos (List.mem_cons_of_mem a hit)]
        rw [List.get?_set_eq, List.get?_set_eq,
          List.get?_set_ne _ _ (fun hc => hia hc.symm)]
      · rw [if_neg hit, if_neg (fun hc => (List.mem_cons.1 hc).elim hia hit)]
        exact List.get?_set_ne _ _ (fun hc => hia hc.symm)

/-- C1: for every list of annotation answer indices (all within the
vocabulary) and every vocabulary size, `compute_answer_scores` returns a
vector of length equal to the vocabulary size in which each answer index `k`
appearing `c` times gets score `min(0.3 * c, 1)`, the unknown index gets
score exactly `0` regardless of its count, and every index not in the
annotation list gets score `0`. -/
theorem compute_answer_scores_spec (answers : List ℕ) (num unk : ℕ)
    (h : ∀ a ∈ answers, a < num) :
    (compute_answer_scores answers num unk).length = num ∧
    (∀ k, k ∈ answers → k ≠ unk →
      (compute_answer_scores answers num unk).get? k =
        some (min ((answers.count k : ℚ) * (3 / 10)) 1)) ∧
    (∀ k, k < num → k = unk ∨ k ∉ answers →
      (compute_answer_scores answers num unk).get? k = some 0) := by
  have hrw : compute_answer_scores answers num unk =
      answers.dedup.foldl
        (fun scores answer => scores.set answer
          (if answer = unk then 0
           else min ((answers.count answer : ℚ) * (3 / 10)) 1))
        (List.replicate num 0) := by
    unfold compute_answer_scores
    congr 1
    funext s a
    by_cases ha : a = unk <;> simp [ha]
  refine ⟨?_, ?_, ?_⟩
  · rw [hrw, foldl_set_length, List.length_replicate]
  · intro k hk hku
    have hkn : k < num := h k hk
    rw [hrw, foldl_set_get? _ _ (List.nodup_dedup answers),
      if_pos (List.mem_dedup.2 hk), List.get?_set_eq]
    have hz : (List.replicate num (0 : ℚ)).get? k = some 0 := by
      simp [List.get?_eq_getElem?, List.getElem?_replicate, hkn]
    rw [hz]
    simp [hku]
  · intro k hk hcase
    by_cases hka : k ∈ answers
    · have hku : k = unk := by tauto
      rw [hrw, foldl_set_get? _ _ (List.nodup_dedup answers),
        if_pos (List.mem_dedup.2 hka), List.get?_set_eq]
      have hz : (List.replicate num (0 : ℚ)).get? k = some 0 := by
        simp [List.get?_eq_getElem?, List.getElem?_replicate, hk]
      rw [hz]
      simp [hku]
    · rw [hrw, foldl_set_get? _ _ (List.nodup_dedup answers),
        if_neg (fun hc => hka (List.mem_dedup.1 hc))]
      simp [List.get?_eq_getElem?, List.getElem?_replicate, hk]

/-- Witness for C1 at the spec's own example `answers = [5,5,5,2]`,
`vocab_size = 10`, `unk = 0`. -/
theorem compute_answer_scores_spec_witness :
    (compute_answer_scores [5, 5, 5, 2] 10 0).length = 10 ∧
    (compute_answer_scores [5, 5, 5, 2] 10 0).get? 5 =
      some (min ((([5, 5, 5, 2] : List ℕ).count 5 : ℚ) * (3 / 10)) 1) ∧
    (compute_answer_scores [5, 5, 5, 2] 10 0).get? 0 = some 0 := by
  have h := compute_answer_scores_spec [5, 5, 5, 2] 10 0 (by decide)
  exact ⟨h.1, h.2.1 5 (by decide) (by decide), h.2.2 0 (by decide) (Or.inl rfl)⟩

/-! The pruning loop, characterised in terms of the original token list. -/

theorem map_some_eq_some (o : Option String) (s : String) :
    o.map some = some (some s) ↔ o = some s := by
  cases o <;> simp

theorem pruneLoopSpec_get? (ts : List String) (i : ℕ) :
    (pruneLoopSpec ts).get? i =
      (ts.get? i).map (fun a => if markedB ts i then none else some a) := by
  unfold pruneLoopSpec
  rw [List.get?_map, List.get?_enum, Option.map_map]
  cases ts.get? i <;> rfl

theorem pruneAux_eq_spec (ts : List String) (k : ℕ) :
    ∀ l : List (Option String),
      (∀ i, i ≤ k → l.get? i = (ts.map some).get? i) →
      (∀ i, k < i → l.get? i = (pruneLoopSpec ts).get? i) →
      pruneAux l k = pruneLoopSpec ts := by
  induction k with
  | zero =>
    intro l h₁ h₂
    show l = pruneLoopSpec ts
    apply List.ext_get?_iff.2
    intro n
    cases n with
    | zero =>
      rw [h₁ 0 (Nat.le_refl 0), List.get?_map, pruneLoopSpec_get?]
      have hz : markedB ts 0 = false := by simp [markedB]
      cases hts : ts.get? 0 <;> simp [hts, hz]
    | succ m => exact h₂ (m + 1) (Nat.succ_pos m)
  | succ k ih =>
    intro l h₁ h₂
    have e1 : l.get? (k + 1) = (ts.get? (k + 1)).map some := by
      rw [h₁ (k + 1) (Nat.le_refl _), List.get?_map]
    have e0 : l.get? k = (ts.get? k).map some := by
      rw [h₁ k (Nat.le_succ k), List.get?_map]
    have c1 : l.get? (k + 1) = some (some "_Filter") ↔
        ts.get? (k + 1) = some "_Filter" := by
      rw [e1]; exact map_some_eq_some _ _
    have c0F : l.get? k = some (some "_Filter") ↔ ts.get? k = some "_Filter" := by
      rw [e0]; exact map_some_eq_some _ _
    have c0D : l.get? k = some (some "_Find") ↔ ts.get? k = some "_Find" := by
      rw [e0]; exact map_some_eq_some _ _
    have hmark : markedB ts (k + 1) = true ↔
        ((l.get? (k + 1 - 1) = some (some "_Filter") ∨
          l.get? (k + 1 - 1) = some (some "_Find"))
          ∧ l.get? (k + 1) = some (some "_Filter")) := by
      rw [Nat.add_sub_cancel]
      simp only [markedB, Bool.and_eq_true, Bool.or_eq_true, beq_iff_eq,
        decide_eq_true_eq, Nat.add_sub_cancel, c1, c0F, c0D]
      constructor
      · rintro ⟨⟨-, hx⟩, hy⟩; exact ⟨hy, hx⟩
      · rintro ⟨hy, hx⟩; exact ⟨⟨Nat.succ_le_succ (Nat.zero_le k), hx⟩, hy⟩
    show pruneAux (pruneBody l (k + 1)) k = pruneLoopSpec ts
    cases hm : markedB ts (k + 1) with
    | true =>
      have hbody : pruneBody l (k + 1) = l.set (k + 1) none := by
        unfold pruneBody
        rw [if_pos (hmark.1 hm)]
      rw [hbody]
      apply ih
      · intro i hi
        rw [List.get?_set_ne _ _ (by omega : k + 1 ≠ i)]
        exact h₁ i (by omega)
      · intro i hi
        by_cases hik : i = k + 1
        · subst hik
          have hf : ts.get? (k + 1) = some "_Filter" := c1.1 (hmark.1 hm).2
          rw [List.get?_set_eq, e1, hf, pruneLoopSpec_get?, hf]
          simp [hm]
        · rw [List.get?_set_ne _ _ (fun hc => hik hc.symm)]
          exact h₂ i (by omega)
    | false =>
      have hbody : pruneBody l (k + 1) = l := by
        unfold pruneBody
        rw [if_neg (fun hc => by rw [hmark.2 hc] at hm; cases hm)]
      rw [hbody]
      apply ih
      · intro i hi
        exact h₁ i (by omega)
      · intro i hi
        by_cases hik : i = k + 1
        · subst hik
          rw [e1, pruneLoopSpec_get?]
          cases hts : ts.get? (k + 1) <;> simp [hts, hm]
        · exact h₂ i (by omega)

theorem pruneAux_map_some (ts : List String) :
    pruneAux (ts.map some) (ts.length - 1) = pruneLoopSpec ts := by
  apply pruneAux_eq_spec ts (ts.length - 1)
  · intro i _
    rfl
  · intro i hi
    have h1 : ts.length ≤ i := by omega
    rw [List.get?_eq_none.2 (by simpa using h1), pruneLoopSpec_get?,
      List.get?_eq_none.2 h1]
    rfl

/-- C3: with pruning enabled, the pruning pass scans from the end toward the
start and removes exactly those tokens equal to `"_Filter"` whose immediately
preceding token in the original list is `"_Filter"` or `"_Find"` (the
positions where `markedB` holds), keeping every other token — in particular
the earlier token of each such pair — in the original relative order.
Stated for token lists without empty-string tokens (module names are
non-empty; the final Python comprehension drops falsy entries). -/
theorem prune_pass_spec (ts : List String) (h : "" ∉ ts) :
    prunePass (ts.map some) =
      (ts.enum.filter (fun p => !markedB ts p.1)).map (fun p => some p.2) := by
  unfold prunePass
  rw [List.length_map, pruneAux_map_some]
  unfold pruneLoopSpec
  rw [List.filter_map]
  have hfeq : ts.enum.filter
      (truthy ∘ fun p => if markedB ts p.1 then none else some p.2) =
      ts.enum.filter (fun p => !markedB ts p.1) := by
    apply List.filter_congr
    intro p hp
    have hmem : p.2 ∈ ts :=
      List.get?_mem (List.mem_enum_iff_get?.1 hp)
    have hne : p.2 ≠ "" := fun hc => h (hc ▸ hmem)
    cases hB : markedB ts p.1 <;> simp [truthy, Function.comp, hB, hne]
  rw [hfeq]
  apply List.map_congr_left
  intro p hp
  have hB : markedB ts p.1 = false := by
    have := (List.mem_filter.1 hp).2
    simpa using this
  simp [hB]

/-- Witness for C3 at the token list `["_Find", "_Filter"]`. -/
theorem prune_pass_spec_witness :
    prunePass ((["_Find", "_Filter"]).map some) =
      ((["_Find", "_Filter"]).enum.filter
        (fun p => !markedB ["_Find", "_Filter"] p.1)).map (fun p => some p.2) :=
  prune_pass_spec ["_Find", "_Filter"] (by decide)

/-- C4 counterexample: on `["_Find","_Filter","_Filter","_Describe"]` the
pruning pass does NOT return `["_Find","_Filter","_Describe"]` — the loop
also removes the first `"_Filter"`, because its predecessor is `"_Find"`. -/
theorem prune_example_cex :
    prunePass (["_Find", "_Filter", "_Filter", "_Describe"].map some) ≠
      ["_Find", "_Filter", "_Describe"].map some := by
  decide

/-- C4 amended: on `["_Find","_Filter","_Filter","_Describe"]` the pruning
pass returns `["_Find","_Describe"]`: the second `"_Filter"` is removed
(preceded by `"_Filter"`) and the first `"_Filter"` is removed as well
(preceded by `"_Find"`). -/
theorem prune_example_amended :
    prunePass (["_Find", "_Filter", "_Filter", "_Describe"].map some) =
      ["_Find", "_Describe"].map some := by
  decide

/-- C7 counterexample: on a mismatched version (observed 0, expected 1)
construction does fail, but the question vocabulary has already been loaded
before the version check — refuting that no vocabulary is loaded before
failing. -/
theorem init_mismatch_cex :
    (initTrace true 0 1).2 = false ∧
      InitEffect.loadQuestionVocab ∈ (initTrace true 0 1).1 := by
  decide

/-- C7 amended: for every construction input whose schema version differs
from the expected one, construction raises (a `TypeError`, which the spec
calls `FormatError`) and neither loads the answer vocabulary nor configures
the feature store before failing; the question vocabulary, however, is loaded
before the version check. -/
theorem init_version_mismatch (v e : ℕ) (h : v ≠ e) :
    (initTrace true v e).2 = false ∧
      InitEffect.loadAnswerVocab ∉ (initTrace true v e).1 ∧
      InitEffect.configureFeaturesDB ∉ (initTrace true v e).1 := by
  unfold initTrace
  simp [h]

/-- Witness for the amended C7 statement at versions 0 and 1. -/
theorem init_version_mismatch_witness :
    (initTrace true 0 1).2 = false ∧
      InitEffect.loadAnswerVocab ∉ (initTrace true 0 1).1 ∧
      InitEffect.configureFeaturesDB ∉ (initTrace true 0 1).1 :=
  init_version_mismatch 0 1 (by decide)

/-! The feature-slot copy loop. -/

theorem mem_copyLoop (slots : Finset ℕ) :
    ∀ (n start j : ℕ), j ∈ copyLoop slots start n ↔
      (start ≤ j ∧ j < start + n ∧ ∀ i, start ≤ i → i ≤ j → i ∈ slots) := by
  intro n
  induction n with
  | zero =>
    intro start j
    simp only [copyLoop, List.not_mem_nil, false_iff]
    rintro ⟨h1, h2, -⟩
    omega
  | succ n ih =>
    intro start j
    by_cases hs : start ∈ slots
    · simp only [copyLoop, if_pos hs, List.mem_cons, ih]
      constructor
      · rintro (rfl | ⟨h1, h2, h3⟩)
        · refine ⟨Nat.le_refl j, by omega, fun i hi1 hi2 => ?_⟩
          have hij : i = j := Nat.le_antisymm hi2 hi1
          exact hij ▸ hs
        · refine ⟨by omega, by omega, fun i hi1 hi2 => ?_⟩
          rcases Nat.eq_or_lt_of_le hi1 with rfl | hlt
          · exact hs
          · exact h3 i (by omega) hi2
      · rintro ⟨h1, h2, h3⟩
        by_cases hj : j = start
        · exact Or.inl hj
        · exact Or.inr ⟨by omega, by omega, fun i hi1 hi2 => h3 i (by omega) hi2⟩
    · simp only [copyLoop, if_neg hs, List.not_mem_nil, false_iff]
      rintro ⟨h1, h2, h3⟩
      exact hs (h3 start (Nat.le_refl start) h1)

theorem copyLoop_sorted (slots : Finset ℕ) :
    ∀ (n start : ℕ), List.Sorted (· < ·) (copyLoop slots start n) := by
  intro n
  induction n with
  | zero => intro start; simp [copyLoop]
  | succ n ih =>
    intro start
    by_cases hs : start ∈ slots
    · simp only [copyLoop, if_pos hs]
      refine List.sorted_cons.2 ⟨fun b hb => ?_, ih (start + 1)⟩
      have := (mem_copyLoop slots n (start + 1) b).1 hb
      omega
    · simp [copyLoop, hs]

/-- C9: the feature-slot copy loop copies slots in increasing slot order,
copies only slots present in the mapping, copies every slot that is present
together with all slots below it (as long as the loop bound — the number of
keys of the mapping — reaches it), and never copies a slot `j` that has some
absent slot `i < j` below it (the first gap stops the copy). -/
theorem feature_slot_copy (slots : Finset ℕ) (total i j : ℕ)
    (hij : i < j) (hi : i ∉ slots) :
    List.Sorted (· < ·) (copyFeatureSlots slots total) ∧
    (∀ m ∈ copyFeatureSlots slots total, m ∈ slots) ∧
    (∀ m, m < total → (∀ k, k ≤ m → k ∈ slots) →
      m ∈ copyFeatureSlots slots total) ∧
    j ∉ copyFeatureSlots slots total := by
  refine ⟨copyLoop_sorted slots total 0, ?_, ?_, ?_⟩
  · intro m hm
    have h := (mem_copyLoop slots total 0 m).1 hm
    exact h.2.2 m (Nat.zero_le m) (Nat.le_refl m)
  · intro m hm hall
    exact (mem_copyLoop slots total 0 m).2
      ⟨Nat.zero_le m, by omega, fun k _ hk2 => hall k hk2⟩
  · intro hj
    have h := (mem_copyLoop slots total 0 j).1 hj
    exact hi (h.2.2 i (Nat.zero_le i) (Nat.le_of_lt hij))

/-- Witness for C9: with slots 0 and 2 present but slot 1 absent, slot 0 is
copied and slot 2 is never copied. -/
theorem feature_slot_copy_witness :
    List.Sorted (· < ·) (copyFeatureSlots {0, 2} 3) ∧
    (∀ m ∈ copyFeatureSlots {0, 2} 3, m ∈ ({0, 2} : Finset ℕ)) ∧
    0 ∈ copyFeatureSlots {0, 2} 3 ∧
    2 ∉ copyFeatureSlots {0, 2} 3 := by
  have h := feature_slot_copy {0, 2} 3 1 2 (by decide) (by decide)
  exact ⟨h.1, h.2.1,
    h.2.2.1 0 (by decide)
      (fun k hk => Nat.le_zero.mp hk ▸ (by decide : (0 : ℕ) ∈ ({0, 2} : Finset ℕ))),
    h.2.2.2⟩

/-- C2: for every question token list of length `L`, the encoded question in
the sample produced by `get(idx)` has length exactly `T_encoder`, its first
`min(L, T_encoder)` entries are the question-vocabulary lookups of the
corresponding tokens (an unknown token maps to the unknown index rather than
erroring), its remaining entries are `0`, and the returned `seq_length`
equals the pre-truncation length `L` even when `L > T_encoder`. -/
theorem getitem_question_encoding
    (d : VQA2Dataset) (fs : Finset ℕ) (ek : ℕ) (info : Option ImageInfoRecord)
    (choose : List String → String) (idx : ℕ) (iminfo : IminfoRecord)
    (s : Sample) (st : List IminfoRecord)
    (hrec : d.imdb.get? (idx + d.first_element_idx) = some iminfo)
    (hget : d.getItem fs ek info choose idx = some (s, st)) :
    s.input_seq_batch.length = d.T_encoder ∧
    s.seq_length_batch = iminfo.question_tokens.length ∧
    (∀ w, w ∉ d.vocab_dict.word_list →
      d.vocab_dict.word2idx w = d.vocab_dict.UNK_idx) ∧
    (∀ k, k < min iminfo.question_tokens.length d.T_encoder →
      s.input_seq_batch.get? k =
        (iminfo.question_tokens.map d.vocab_dict.word2idx).get? k) ∧
    (∀ k, min iminfo.question_tokens.length d.T_encoder ≤ k → k < d.T_encoder →
      s.input_seq_batch.get? k = some 0) := by
  unfold VQA2Dataset.getItem at hget
  rw [hrec] at hget
  dsimp only at hget
  cases hm : answerPart d choose iminfo with
  | none =>
    rw [hm] at hget
    exact absurd hget (by simp)
  | some val =>
    obtain ⟨a, v, sc⟩ := val
    rw [hm] at hget
    simp only [Option.some.injEq, Prod.mk.injEq] at hget
    obtain ⟨hs, -⟩ := hget
    subst hs
    simp only [List.length_map]
    refine ⟨?_, trivial, ?_, ?_, ?_⟩
    · have h1 : min iminfo.question_tokens.length d.T_encoder ≤
          iminfo.question_tokens.length := Nat.min_le_left _ _
      have h2 : min iminfo.question_tokens.length d.T_encoder ≤
          d.T_encoder := Nat.min_le_right _ _
      simp only [List.length_append, List.length_take, List.length_replicate,
        List.length_map]
      omega
    · intro w hw
      unfold VocabDict.word2idx
      have hnone : d.vocab_dict.word_list.indexOf? w = none :=
        List.indexOf?_eq_none_iff.2 (fun x hx hbeq => hw ((eq_of_beq hbeq) ▸ hx))
      rw [hnone]
      rfl
    · intro k hk
      rw [List.get?_append, List.get?_take]
      · simpa using hk
      · simp only [List.length_take, List.length_map]
        omega
    · intro k hk1 hk2
      rw [List.get?_append_right, List.get?_eq_getElem?,
        List.getElem?_replicate]
      · simp only [List.length_take, List.length_map]
        have : k - min (min iminfo.question_tokens.length d.T_encoder)
            iminfo.question_tokens.length <
            d.T_encoder - min iminfo.question_tokens.length d.T_encoder := by
          omega
        rw [if_pos this]
      · simp only [List.length_take, List.length_map]
        omega

/-- Witness for C2 on `D0` (question "what foo", `T_encoder = 3`): the first
entry is the lookup of a known token, the second token is unknown, the third
entry is padding. -/
theorem getitem_question_encoding_witness :
    S0.input_seq_batch.length = D0.T_encoder ∧
    S0.seq_length_batch = rec0.question_tokens.length ∧
    S0.input_seq_batch.get? 0 =
      (rec0.question_tokens.map D0.vocab_dict.word2idx).get? 0 ∧
    S0.input_seq_batch.get? 2 = some 0 := by
  have h := getitem_question_encoding D0 ∅ 0 none choose0 0 rec0 S0 St0 rfl rfl
  exact ⟨h.1, h.2.1, h.2.2.2.1 0 (by decide), h.2.2.2.2 2 (by decide) (by decide)⟩

/-- C10: the dataset reports its length as one less than the number of imdb
records, and `get(idx)` reads the metadata record at raw position
`idx + first_element_idx`: the produced `seq_length` comes from the record at
that shifted position, and when no record exists there the call fails even
if position `idx` itself holds a record. -/
theorem len_and_index_shift
    (d : VQA2Dataset) (fs : Finset ℕ) (ek : ℕ) (info : Option ImageInfoRecord)
    (choose : List String → String) (idx : ℕ) (iminfo : IminfoRecord)
    (s : Sample) (st : List IminfoRecord)
    (hrec : d.imdb.get? (idx + d.first_element_idx) = some iminfo)
    (hget : d.getItem fs ek info choose idx = some (s, st)) :
    VQA2Dataset.len d = d.imdb.length - 1 ∧
    s.seq_length_batch = iminfo.question_tokens.length ∧
    (∀ j, d.imdb.get? (j + d.first_element_idx) = none →
      d.getItem fs ek info choose j = none) := by
  refine ⟨rfl, ?_, ?_⟩
  · unfold VQA2Dataset.getItem at hget
    rw [hrec] at hget
    dsimp only at hget
    cases hm : answerPart d choose iminfo with
    | none =>
      rw [hm] at hget
      exact absurd hget (by simp)
    | some val =>
      obtain ⟨a, v, sc⟩ := val
      rw [hm] at hget
      simp only [Option.some.injEq, Prod.mk.injEq] at hget
      obtain ⟨hs, -⟩ := hget
      subst hs
      simp [List.length_map]
  · intro j hj
    unfold VQA2Dataset.getItem
    rw [hj]

/-- Witness for C10 on `D0`: length is `2 - 1`, `get(0)` reads the record at
raw position `1`, and `get(5)` fails because position `6` is out of range. -/
theorem len_and_index_shift_witness :
    VQA2Dataset.len D0 = D0.imdb.length - 1 ∧
    S0.seq_length_batch = rec0.question_tokens.length ∧
    D0.getItem ∅ 0 none choose0 5 = none := by
  have h := len_and_index_shift D0 ∅ 0 none choose0 0 rec0 S0 St0 rfl rfl
  exact ⟨h.1, h.2.1, h.2.2 5 rfl⟩

/-- C8: for every example whose record carries `n ≤ 10` valid-answer
annotations, the valid-answers index stored in the sample is the length-10
integer array whose first `n` slots are the answer-vocabulary indices of the
annotations in annotation order (one slot per raw annotation, duplicates
kept) and whose slots `n` through `9` all equal `-1`. -/
theorem getitem_valid_answers
    (d : VQA2Dataset) (fs : Finset ℕ) (ek : ℕ) (info : Option ImageInfoRecord)
    (choose : List String → String) (idx : ℕ) (iminfo : IminfoRecord)
    (vats : List String) (s : Sample) (st : List IminfoRecord)
    (hrec : d.imdb.get? (idx + d.first_element_idx) = some iminfo)
    (hload : d.load_answer = true)
    (hat : iminfo.answer_tokens = none)
    (hvat : iminfo.valid_answers_tokens = some vats)
    (hlen : vats.length ≤ 10)
    (hget : d.getItem fs ek info choose idx = some (s, st)) :
    s.valid_ans_label_batch = some (validAnswersIdx d.answer_dict vats) ∧
    (validAnswersIdx d.answer_dict vats).length = 10 ∧
    (∀ i, i < vats.length →
      (validAnswersIdx d.answer_dict vats).get? i =
        (vats.map (fun ans => ((d.answer_dict.word2idx ans : ℕ) : ℤ))).get? i) ∧
    (∀ i, vats.length ≤ i → i < 10 →
      (validAnswersIdx d.answer_dict vats).get? i = some (-1)) := by
  have hm : answerPart d choose iminfo =
      some (some (d.answer_dict.word2idx (choose vats)),
        validAnswersIdx d.answer_dict vats,
        compute_answer_scores (vats.map d.answer_dict.word2idx)
          d.answer_dict.num_vocab d.answer_dict.UNK_idx) := by
    unfold answerPart
    rw [hload, hat, hvat]
    dsimp only
    rw [if_pos hlen, if_pos rfl]
  refine ⟨?_, ?_, ?_, ?_⟩
  · unfold VQA2Dataset.getItem at hget
    rw [hrec] at hget
    dsimp only at hget
    rw [hm] at hget
    simp only [Option.some.injEq, Prod.mk.injEq] at hget
    obtain ⟨hs, -⟩ := hget
    subst hs
    rfl
  · unfold validAnswersIdx sliceAssign
    simp only [List.length_append, List.length_drop, List.length_map,
      List.length_replicate]
    omega
  · intro i hi
    unfold validAnswersIdx sliceAssign
    rw [List.get?_append]
    simp only [List.length_map]
    exact hi
  · intro i hi1 hi2
    unfold validAnswersIdx sliceAssign
    rw [List.get?_append_right (by simpa using hi1), List.length_map,
      List.drop_replicate, List.get?_eq_getElem?, List.getElem?_replicate,
      if_pos (by omega)]

/-- Witness for C8 on `D8` (two annotations "yes" and "maybe", the second
unknown to the answer vocabulary): slots 0 and 1 hold their indices, slot 5
holds `-1`. -/
theorem getitem_valid_answers_witness :
    S8.valid_ans_label_batch =
      some (validAnswersIdx D8.answer_dict ["yes", "maybe"]) ∧
    (validAnswersIdx D8.answer_dict ["yes", "maybe"]).length = 10 ∧
    (validAnswersIdx D8.answer_dict ["yes", "maybe"]).get? 0 =
      ((["yes", "maybe"]).map
        (fun ans => ((D8.answer_dict.word2idx ans : ℕ) : ℤ))).get? 0 ∧
    (validAnswersIdx D8.answer_dict ["yes", "maybe"]).get? 5 = some (-1) := by
  have h := getitem_valid_answers D8 ∅ 0 none choose0 0 rec8 ["yes", "maybe"]
    S8 St8 rfl rfl rfl rfl (by decide) rfl
  exact ⟨h.1, h.2.1, h.2.2.1 0 (by decide), h.2.2.2 5 (by decide) (by decide)⟩

/-- C5 (code behavior, contradicting the claim): even with `load_answer`
disabled — so no answers are being loaded and the record carries no
annotations at all — the sample still contains both `valid_ans_label_batch`
(all `-1`) and `answers` (all zeros): the Python guard
`if valid_answers_idx is not None` on dataset.py line 158 is vacuously true,
because `valid_answers_idx` is unconditionally a numpy array. -/
theorem valid_ans_fields_always_present :
    D0.load_answer = false ∧
    G0 = some (S0, St0) ∧
    S0.valid_ans_label_batch = some (List.replicate 10 (-1)) ∧
    S0.answers = some (List.replicate 2 0) :=
  ⟨rfl, rfl, rfl, rfl⟩

/-- C6 (code behavior, contradicting the claim): with `load_gt_layout` and
`prune_filter_module` enabled, `get(0)` is not side-effect-free on the index
database: the pruning loop writes Python `None` into the stored record's
`gt_layout_tokens` list through the alias taken at dataset.py line 124, so
after the call the store differs from the store before the call. -/
theorem getitem_mutates_store :
    G6 = some (S6, St6) ∧
    St6 ≠ D6.imdb ∧
    St6 = [hdr0, { rec6 with gt_layout_tokens := [some "_Find", none] }] := by
  exact ⟨rfl, by decide, by decide⟩
